import Mathlib

/-!
# STORYHUB — verification of the runtime scripts and manifest contracts

Shallow embedding of the repository's JavaScript runtime code
(`src/js/navgen.js`, `src/unnamed/part_000` — a second navgen variant —
and `src/content/order/js/lightbox.js`) together with a spec-modelled
view of the build pipeline's manifest store (the Python builders are
documented in `src/README.txt` / `src/storyhub/README.txt` but their
code is not part of this tree).

JavaScript values are modelled by an inductive `JSVal`; numbers are
modelled as integers (the manifest's `schema` and `index` fields are
integers), `localeCompare` is modelled as code-point lexicographic
comparison, and `Array.prototype.sort` is modelled as a stable sort,
as guaranteed by the ECMAScript specification.
-/

/-- A JavaScript value, as far as the navigation scripts inspect one.
Numbers are modelled as integers (`schema` and `index` are integral). -/
inductive JSVal where
  | null
  | undefined
  | bool (b : Bool)
  | num (n : Int)
  | str (s : String)
  | arr (elems : List JSVal)
  | obj (fields : List (String × JSVal))

/-- JS truthiness (`!v` is the negation of this). -/
def jsTruthy : JSVal → Bool
  | .null => false
  | .undefined => false
  | .bool b => b
  | .num n => n != 0
  | .str s => s != ""
  | .arr _ => true
  | .obj _ => true

/-- The `typeof` operator; note `typeof null` is `"object"` in JS. -/
def jsTypeof : JSVal → String
  | .null => "object"
  | .undefined => "undefined"
  | .bool _ => "boolean"
  | .num _ => "number"
  | .str _ => "string"
  | .arr _ => "object"
  | .obj _ => "object"

/-- First binding of a key in an object's field list. -/
def propLookup : List (String × JSVal) → String → JSVal
  | [], _ => .undefined
  | (k, v) :: rest, key => if k = key then v else propLookup rest key

/-- Property access `v[key]`.  On non-objects the scripts only read
properties of values already guarded to be objects, or of primitives
(where JS yields `undefined`); array index/length properties are never
read by name in the embedded code. -/
def getProp : JSVal → String → JSVal
  | .obj fields, key => propLookup fields key
  | _, _ => .undefined

/-- JS short-circuit `a || b`. -/
def jsOr (a b : JSVal) : JSVal :=
  if jsTruthy a then a else b

mutual

/-- JS `String(v)` conversion for the values the scripts stringify. -/
def jsToString : JSVal → String
  | .null => "null"
  | .undefined => "undefined"
  | .bool b => if b then "true" else "false"
  | .num n => toString n
  | .str s => s
  | .arr xs => jsToStringList xs
  | .obj _ => "[object Object]"

/-- `Array.prototype.toString` joins element strings with commas. -/
def jsToStringList : List JSVal → String
  | [] => ""
  | [x] => jsToString x
  | x :: y :: rest => jsToString x ++ "," ++ jsToStringList (y :: rest)

end

/-- Comparison of two characters by code point, returning the sign
convention of `localeCompare` (-1 / 0 / 1). -/
def charCmp (c d : Char) : Int :=
  if c.toNat < d.toNat then -1 else if d.toNat < c.toNat then 1 else 0

/-- Lexicographic string comparison by code points; the embedding of
`String.prototype.localeCompare` (locale-specific collation is modelled
as code-point order). -/
def lexCmp : List Char → List Char → Int
  | [], [] => 0
  | [], _ :: _ => -1
  | _ :: _, [] => 1
  | c :: cs, d :: ds => if charCmp c d = 0 then lexCmp cs ds else charCmp c d

theorem charCmp_flip (c d : Char) : charCmp c d = -charCmp d c := by
  unfold charCmp
  rcases Nat.lt_trichotomy c.toNat d.toNat with h | h | h
  · simp [h, Nat.lt_asymm h]
  · simp [h, Nat.lt_irrefl]
  · simp [h, Nat.lt_asymm h]

theorem charCmp_eq_zero {c d : Char} (h : charCmp c d = 0) :
    c.toNat = d.toNat := by
  unfold charCmp at h
  by_cases h1 : c.toNat < d.toNat
  · simp [h1] at h
  · by_cases h2 : d.toNat < c.toNat
    · simp [h1, h2] at h
    · omega

theorem charCmp_neg {c d : Char} (hne : ¬ charCmp c d = 0)
    (h : charCmp c d ≤ 0) : c.toNat < d.toNat := by
  unfold charCmp at hne h
  by_cases h1 : c.toNat < d.toNat
  · exact h1
  · by_cases h2 : d.toNat < c.toNat
    · simp [h1, h2] at h
    · simp [h1, h2] at hne

theorem lexCmp_flip : ∀ s t : List Char, lexCmp s t = -lexCmp t s
  | [], [] => by simp [lexCmp]
  | [], _ :: _ => by simp [lexCmp]
  | _ :: _, [] => by simp [lexCmp]
  | c :: cs, d :: ds => by
    simp only [lexCmp]
    by_cases h : charCmp c d = 0
    · have h' : charCmp d c = 0 := by
        have := charCmp_flip c d; omega
      simp [h, h', lexCmp_flip cs ds]
    · have h' : ¬ charCmp d c = 0 := by
        intro hz
        have := charCmp_flip c d
        rw [hz] at this
        simp at this
        exact h this
      simp [h, h', charCmp_flip c d]

theorem lexCmp_le_trans :
    ∀ a b c : List Char, lexCmp a b ≤ 0 → lexCmp b c ≤ 0 → lexCmp a c ≤ 0
  | [], b, c, _, _ => by cases c <;> simp [lexCmp]
  | _ :: _, [], _, h1, _ => by simp [lexCmp] at h1
  | _ :: _, _ :: _, [], _, h2 => by simp [lexCmp] at h2
  | x :: xs, y :: ys, z :: zs, h1, h2 => by
    simp only [lexCmp] at h1 h2 ⊢
    by_cases hxy : charCmp x y = 0
    · by_cases hyz : charCmp y z = 0
      · have hxz : charCmp x z = 0 := by
          have e1 := charCmp_eq_zero hxy
          have e2 := charCmp_eq_zero hyz
          unfold charCmp; omega
        simp only [hxy, if_pos rfl] at h1
        simp only [hyz, if_pos rfl] at h2
        simp [hxz, lexCmp_le_trans xs ys zs h1 h2]
      · have hlt : y.toNat < z.toNat := by
          apply charCmp_neg hyz; simpa [hyz] using h2
        have e1 := charCmp_eq_zero hxy
        have hxz : charCmp x z = -1 := by
          unfold charCmp
          have : x.toNat < z.toNat := by omega
          simp [this]
        simp [hxz]
    · have hlt : x.toNat < y.toNat := by
        apply charCmp_neg hxy; simpa [hxy] using h1
      by_cases hyz : charCmp y z = 0
      · have e2 := charCmp_eq_zero hyz
        have hxz : charCmp x z = -1 := by
          unfold charCmp
          have : x.toNat < z.toNat := by omega
          simp [this]
        simp [hxz]
      · have hlt2 : y.toNat < z.toNat := by
          apply charCmp_neg hyz; simpa [hyz] using h2
        have hxz : charCmp x z = -1 := by
          unfold charCmp
          simp [Nat.lt_trans hlt hlt2]
        simp [hxz]

/-- Insertion step of the stable sort: the new element goes after every
element that compares strictly below it (ties keep the earlier element
first, as ECMAScript's stable `Array.prototype.sort` requires). -/
def jsInsert (cmp : α → α → Int) (x : α) : List α → List α
  | [] => [x]
  | y :: ys => if cmp y x < 0 then y :: jsInsert cmp x ys else x :: y :: ys

/-- Stable sort modelling `Array.prototype.sort(cmp)`. -/
def jsSort (cmp : α → α → Int) : List α → List α
  | [] => []
  | x :: xs => jsInsert cmp x (jsSort cmp xs)

theorem jsInsert_perm (cmp : α → α → Int) (x : α) :
    ∀ l : List α, List.Perm (jsInsert cmp x l) (x :: l)
  | [] => by simp [jsInsert]
  | y :: ys => by
    simp only [jsInsert]
    by_cases h : cmp y x < 0
    · simp only [if_pos h]
      exact ((jsInsert_perm cmp x ys).cons y).trans (List.Perm.swap x y ys)
    · simp [if_neg h]

theorem jsSort_perm (cmp : α → α → Int) :
    ∀ l : List α, List.Perm (jsSort cmp l) l
  | [] => by simp [jsSort]
  | x :: xs => by
    simp only [jsSort]
    exact (jsInsert_perm cmp x (jsSort cmp xs)).trans
      ((jsSort_perm cmp xs).cons x)

theorem jsInsert_pairwise (cmp : α → α → Int) (x : α) :
    ∀ l : List α,
    (∀ a b, cmp a b = -cmp b a) →
    (∀ a b c, a ∈ x :: l → b ∈ x :: l → c ∈ x :: l →
      cmp a b ≤ 0 → cmp b c ≤ 0 → cmp a c ≤ 0) →
    l.Pairwise (fun a b => cmp a b ≤ 0) →
    (jsInsert cmp x l).Pairwise (fun a b => cmp a b ≤ 0)
  | [], _, _, _ => by simp [jsInsert]
  | y :: ys, hflip, htrans, hp => by
    rw [List.pairwise_cons] at hp
    obtain ⟨hy, hys⟩ := hp
    have memlift : ∀ z, z ∈ x :: ys → z ∈ x :: y :: ys := by
      intro z hz
      rcases List.mem_cons.mp hz with hz | hz
      · exact hz ▸ List.mem_cons_self _ _
      · exact List.mem_cons_of_mem _ (List.mem_cons_of_mem _ hz)
    simp only [jsInsert]
    by_cases h : cmp y x < 0
    · simp only [if_pos h]
      rw [List.pairwise_cons]
      refine ⟨?_, ?_⟩
      · intro z hz
        rcases List.mem_cons.mp ((jsInsert_perm cmp x ys).mem_iff.mp hz)
          with hz | hz
        · subst hz; omega
        · exact hy z hz
      · refine jsInsert_pairwise cmp x ys hflip ?_ hys
        intro a b c ha hb hc
        exact htrans a b c (memlift a ha) (memlift b hb) (memlift c hc)
    · simp only [if_neg h]
      rw [List.pairwise_cons]
      have hxy : cmp x y ≤ 0 := by
        have := hflip x y; omega
      refine ⟨?_, List.pairwise_cons.mpr ⟨hy, hys⟩⟩
      intro z hz
      rcases List.mem_cons.mp hz with hz | hz
      · exact hz ▸ hxy
      · exact htrans x y z (List.mem_cons_self _ _)
          (List.mem_cons_of_mem _ (List.mem_cons_self _ _))
          (List.mem_cons_of_mem _ (List.mem_cons_of_mem _ hz)) hxy (hy z hz)

theorem jsSort_pairwise (cmp : α → α → Int) :
    ∀ l : List α,
    (∀ a b, cmp a b = -cmp b a) →
    (∀ a b c, a ∈ l → b ∈ l → c ∈ l →
      cmp a b ≤ 0 → cmp b c ≤ 0 → cmp a c ≤ 0) →
    (jsSort cmp l).Pairwise (fun a b => cmp a b ≤ 0)
  | [], _, _ => by simp [jsSort]
  | x :: xs, hflip, htrans => by
    simp only [jsSort]
    have memlift : ∀ z, z ∈ x :: jsSort cmp xs → z ∈ x :: xs := by
      intro z hz
      rcases List.mem_cons.mp hz with hz | hz
      · exact hz ▸ List.mem_cons_self _ _
      · exact List.mem_cons_of_mem _ ((jsSort_perm cmp xs).mem_iff.mp hz)
    refine jsInsert_pairwise cmp x (jsSort cmp xs) hflip ?_ ?_
    · intro a b c ha hb hc
      exact htrans a b c (memlift a ha) (memlift b hb) (memlift c hc)
    · refine jsSort_pairwise cmp xs hflip ?_
      intro a b c ha hb hc
      exact htrans a b c (List.mem_cons_of_mem _ ha)
        (List.mem_cons_of_mem _ hb) (List.mem_cons_of_mem _ hc)

/-! ## navgen.js — manifest version gate and defensive sort

`src/js/navgen.js` and `src/unnamed/part_000` contain the same
`pickArcEntries` (lines 67-78 and 101-112 respectively) and the same
defensive sort comparator (lines 170-181 and 359-370); the second file
additionally renders a folder tree for the `lore`/`characters` arcs. -/

/-- JS strict equality `v === k` against an integer literal. -/
def jsIsNum (v : JSVal) (k : Int) : Bool :=
  match v with
  | .num n => n == k
  | _ => false

/-- `Array.isArray(v)`, together with the array's elements. -/
def jsAsArray : JSVal → Option (List JSVal)
  | .arr elems => some elems
  | _ => none

/-- `pickArcEntries(manifest, arc)` — identical in both navgen variants:
rejects non-objects, `schema !== 2`, a non-object `arcs`, and a
non-array `arcs[arc]`; otherwise returns the entries array. -/
def pickArcEntries (manifest : JSVal) (arc : String) : Option (List JSVal) :=
  if jsTruthy manifest = false ∨ jsTypeof manifest ≠ "object" then none
  else if jsIsNum (getProp manifest "schema") 2 = false then none
  else
    let arcs := getProp manifest "arcs"
    if jsTruthy arcs = false ∨ jsTypeof arcs ≠ "object" then none
    else jsAsArray (getProp arcs arc)

/-- `typeof entry.index === "number" ? entry.index : null`. -/
def entryIndexNum (e : JSVal) : Option Int :=
  match getProp e "index" with
  | .num n => some n
  | _ => none

/-- `String(e.title || e.title_text || e.id || "").toLowerCase()`,
as a character list. -/
def entrySortKey (e : JSVal) : List Char :=
  (jsToString (jsOr (getProp e "title") (jsOr (getProp e "title_text")
    (jsOr (getProp e "id") (.str ""))))).data.map Char.toLower

/-- The defensive sort comparator of `src/js/navgen.js` lines 170-181:
numeric `index` difference when both entries have one, otherwise
case-insensitive title comparison. -/
def entCmpV1 (a b : JSVal) : Int :=
  match entryIndexNum a, entryIndexNum b with
  | some ai, some bi => ai - bi
  | _, _ => lexCmp (entrySortKey a) (entrySortKey b)

/-- The defensive sort comparator of `src/unnamed/part_000` lines
359-370 (textually the same algorithm as `entCmpV1`). -/
def entCmpV2 (a b : JSVal) : Int :=
  match entryIndexNum a, entryIndexNum b with
  | some ai, some bi => ai - bi
  | _, _ => lexCmp (entrySortKey a) (entrySortKey b)

/-! ## part_000 — path-derived titles and the folder tree -/

/-- JS whitespace for `trim()` / `\s` as used by the titles here. -/
def isJsSpace (c : Char) : Bool :=
  c = ' ' ∨ c = '\t' ∨ c = '\n' ∨ c = '\r'

/-- `replace(/\\/g, "/")`. -/
def mapBackslashes : List Char → List Char :=
  List.map fun c => if c = '\\' then '/' else c

/-- `replace(/^\.\//, "")` — a single leading `./` is removed. -/
def dropDotSlash : List Char → List Char
  | '.' :: '/' :: rest => rest
  | cs => cs

/-- `replace(/\/{2,}/g, "/")` — collapse runs of slashes. -/
def collapseSlashes : List Char → List Char
  | [] => []
  | [c] => [c]
  | c :: d :: rest =>
    if c = '/' ∧ d = '/' then collapseSlashes (d :: rest)
    else c :: collapseSlashes (d :: rest)

/-- `normalizePath(p)` from both navgen variants. -/
def normalizePath (p : JSVal) : String :=
  if jsTruthy p = false then ""
  else String.mk (collapseSlashes (dropDotSlash (mapBackslashes
    (jsToString p).data)))

/-- `trim()`. -/
def jsTrim (cs : List Char) : List Char :=
  ((cs.dropWhile isJsSpace).reverse.dropWhile isJsSpace).reverse

/-- `replace(/\.html$/i, "")`. -/
def dropHtmlSuffix (cs : List Char) : List Char :=
  if 5 ≤ cs.length ∧
      (cs.map Char.toLower).drop (cs.length - 5) = ['.', 'h', 't', 'm', 'l']
    then cs.take (cs.length - 5)
    else cs

/-- Worker for `replace(/[_-]+/g, " ")`: the flag records whether we are
inside a run of `_`/`-` (a run contributes a single space). -/
def dashRunToSpace (inRun : Bool) : List Char → List Char
  | [] => []
  | c :: rest =>
    if c = '_' ∨ c = '-' then
      (if inRun then [] else [' ']) ++ dashRunToSpace true rest
    else c :: dashRunToSpace false rest

/-- `replace(/[_-]+/g, " ")`. -/
def dashesToSpaces (cs : List Char) : List Char :=
  dashRunToSpace false cs

/-- `split(sep)` for a one-character separator (as in `split("/")` and
`split(" ")`); JS yields at least one (possibly empty) piece. -/
def splitOnChar (sep : Char) : List Char → List (List Char)
  | [] => [[]]
  | c :: rest =>
    match splitOnChar sep rest with
    | [] => [[c]]
    | piece :: pieces =>
      if c = sep then [] :: piece :: pieces else (c :: piece) :: pieces

/-- `split(" / ")`, the three-character separator used by
`leafTitleFromEntry` in `src/unnamed/part_000`. -/
def splitSlashSep : List Char → List (List Char)
  | [] => [[]]
  | ' ' :: '/' :: ' ' :: rest => [] :: splitSlashSep rest
  | c :: rest =>
    match splitSlashSep rest with
    | [] => [[c]]
    | piece :: pieces => (c :: piece) :: pieces

/-- Word capitalisation step of `humanizeSegment`: words of length ≤ 2
are upper-cased, longer words get a capital followed by lower case. -/
def capWord (w : List Char) : List Char :=
  if w.length ≤ 2 then w.map Char.toUpper
  else
    match w with
    | [] => []
    | c :: rest => Char.toUpper c :: rest.map Char.toLower

/-- `join(" ")`. -/
def joinSpaces : List (List Char) → List Char
  | [] => []
  | [w] => w
  | w :: ws => w ++ ' ' :: joinSpaces ws

/-- `humanizeSegment(seg)` from `src/unnamed/part_000` lines 114-127:
strips a `.html` suffix, turns `_`/`-` runs into spaces, trims, and
title-cases the words. -/
def humanizeSegment (seg : String) : String :=
  let s := jsTrim (dashesToSpaces (dropHtmlSuffix seg.data))
  if s = [] then ""
  else String.mk (joinSpaces
    (((splitOnChar ' ' s).filter (· ≠ [])).map capWord))

/-- `startsWith` on character lists. -/
def charsStartWith : List Char → List Char → Bool
  | [], _ => true
  | _ :: _, [] => false
  | p :: ps, c :: rest => p = c && charsStartWith ps rest

/-- `stripArcFromOutput(output, arc)` from `src/unnamed/part_000`
lines 129-135: drop a leading `content/<arc>/` from the normalized
output path. -/
def stripArcFromOutput (output : JSVal) (arc : String) : String :=
  let out := normalizePath output
  let pre := ("content/" ++ arc ++ "/").data
  if charsStartWith pre out.data then String.mk (out.data.drop pre.length)
  else out

/-- `replace(/^[CL]\s+/i, "")` — drop a leading `C `/`L ` marker. -/
def dropRefMark (cs : List Char) : List Char :=
  match cs with
  | [] => []
  | c :: rest =>
    if (c = 'C' ∨ c = 'c' ∨ c = 'L' ∨ c = 'l') ∧
        (match rest with
         | d :: _ => isJsSpace d
         | [] => false) = true then
      rest.dropWhile isJsSpace
    else cs

/-- `leafTitleFromEntry(entry)` from `src/unnamed/part_000` lines
137-152: prefers the last ` / `-separated piece of the title, otherwise
falls back to the filename stem of `entry.output`. -/
def leafTitleFromEntry (entry : JSVal) : String :=
  let raw := jsToString (jsOr (getProp entry "title")
    (jsOr (getProp entry "title_text") (jsOr (getProp entry "id") (.str ""))))
  let cleaned := jsTrim (dropRefMark raw.data)
  let pieces := splitSlashSep cleaned
  let parts := (pieces.map jsTrim).filter (· ≠ [])
  if 2 ≤ pieces.length ∧ parts ≠ [] then
    String.mk (parts.getLastD [])
  else
    let out := normalizePath (getProp entry "output")
    let segs := splitOnChar '/' out.data
    let name := segs.getLastD []
    let name := if name = [] then out.data else name
    String.mk (dropHtmlSuffix name)

/-- The visible row title produced by `makeRow` in `src/unnamed/part_000`
lines 170-177: `humanizeSegment(leafTitleFromEntry(entry))`, falling
back to the raw title fields and finally the output path. -/
def displayedTitleV2 (entry : JSVal) : String :=
  let titleText := humanizeSegment (leafTitleFromEntry entry)
  let output := normalizePath (getProp entry "output")
  jsToString (jsOr (.str titleText) (jsOr (getProp entry "title")
    (jsOr (getProp entry "title_text") (jsOr (getProp entry "id")
      (.str output)))))

/-- Tree node of `buildTree` (`src/unnamed/part_000` lines 221-252):
an insertion-ordered folder map plus the pages at this level. -/
inductive TreeNode where
  | node (folders : List (String × TreeNode)) (pages : List JSVal)

def TreeNode.folders : TreeNode → List (String × TreeNode)
  | .node fs _ => fs

def TreeNode.pages : TreeNode → List JSVal
  | .node _ ps => ps

/-- `Map.get`-or-create step preserving insertion order: apply `upd`
to the child stored under `key`, creating an empty node when absent. -/
def updateFolder (key : String) (upd : TreeNode → TreeNode) :
    List (String × TreeNode) → List (String × TreeNode)
  | [] => [(key, upd (.node [] []))]
  | (g, child) :: tail =>
    if g = key then (g, upd child) :: tail
    else (g, child) :: updateFolder key upd tail

/-- Insert an entry below a folder path, creating nodes on demand
(the body of `buildTree`'s per-entry loop). -/
def insertAt : List String → JSVal → TreeNode → TreeNode
  | [], e, t => .node t.folders (t.pages ++ [e])
  | f :: rest, e, t => .node (updateFolder f (insertAt rest e) t.folders) t.pages

/-- `buildTree(entries, arc)` from `src/unnamed/part_000` lines 221-252:
entries are grouped by the folder segments of their `output` path. -/
def buildTree (entries : List JSVal) (arc : String) : TreeNode :=
  entries.foldl
    (fun root entry =>
      let rel := stripArcFromOutput (getProp entry "output") arc
      let parts := ((splitOnChar '/' (normalizePath (.str rel)).data).filter
        (· ≠ [])).map String.mk
      if parts = [] then .node root.folders (root.pages ++ [entry])
      else insertAt parts.dropLast entry root)
    (.node [] [])

/-- Folder comparator of `sortNode` (`src/unnamed/part_000` lines
263-265). -/
def folderCmp (a b : String × TreeNode) : Int :=
  lexCmp ((humanizeSegment a.1).data.map Char.toLower)
    ((humanizeSegment b.1).data.map Char.toLower)

/-- Page comparator of `sortNode` (`src/unnamed/part_000` lines
256-260). -/
def pageCmp (a b : JSVal) : Int :=
  lexCmp ((humanizeSegment (leafTitleFromEntry a)).data.map Char.toLower)
    ((humanizeSegment (leafTitleFromEntry b)).data.map Char.toLower)

mutual

/-- `sortNode` from `src/unnamed/part_000` lines 254-275.  The source
sorts the folder keys and then recurses into each child while rebuilding
the map; recursing first and then sorting the pairs by key gives the
same tree because the folder comparator reads only the keys and the
sort only permutes the pairs. -/
def sortNode : TreeNode → TreeNode
  | .node fs ps => .node (jsSort folderCmp (sortChildren fs)) (jsSort pageCmp ps)

/-- Recurse `sortNode` into every child. -/
def sortChildren : List (String × TreeNode) → List (String × TreeNode)
  | [] => []
  | (k, c) :: rest => (k, sortNode c) :: sortChildren rest

end

/-! ## buildNav — final mount contents -/

/-- Outcome of `fetchManifest`: the network request may reject, the
response may be non-OK (the function then throws
`Failed to load manifest (status statusText)`), the body may fail to
parse as JSON, or a JSON value is produced. -/
inductive FetchOutcome where
  | networkError (msg : String)
  | httpError (status : Nat) (statusText : String)
  | jsonError (msg : String)
  | ok (v : JSVal)

/-- The message of the exception a failed fetch raises inside
`buildNav`'s `try` block; `none` when a manifest value was produced. -/
def fetchFailureMsg : FetchOutcome → Option String
  | .networkError msg => some msg
  | .httpError status statusText =>
    some ("Failed to load manifest (" ++ toString status ++ " "
      ++ statusText ++ ")")
  | .jsonError msg => some msg
  | .ok _ => none

/-- A status element left in the mount after `buildNav` finishes:
`div.nav-error`, `div.nav-empty`, the flat `div.chapter-list` (rows in
render order), or the `div.nav-tree` of the second variant. -/
inductive MountChild where
  | navError (msg : String)
  | navEmpty (msg : String)
  | chapterList (rows : List JSVal)
  | navTree (t : TreeNode)

/-- `buildNav` of `src/js/navgen.js` lines 140-191 (with the default
options), as the mount's final children: every fetch failure is caught
and rendered as an error element, a rejected manifest shows the
format-mismatch error, an empty arc shows the empty message, otherwise
the defensively sorted rows are rendered. -/
def buildNavV1 (fetched : FetchOutcome) (arc : String) : List MountChild :=
  match fetched with
  | .ok manifest =>
    match pickArcEntries manifest arc with
    | none => [.navError "Manifest format mismatch (expected schema 2)."]
    | some entries =>
      if entries.length = 0 then [.navEmpty "No chapters yet."]
      else [.chapterList (jsSort entCmpV1 entries)]
  | failure =>
    [.navError ("Couldn’t load chapters. " ++ (fetchFailureMsg failure).getD "")]

/-- `buildNav` of `src/unnamed/part_000` lines 329-387: as `buildNavV1`,
except that the `lore` and `characters` arcs render the sorted folder
tree instead of the flat list. -/
def buildNavV2 (fetched : FetchOutcome) (arc : String) : List MountChild :=
  match fetched with
  | .ok manifest =>
    match pickArcEntries manifest arc with
    | none => [.navError "Manifest format mismatch (expected schema 2)."]
    | some entries =>
      if entries.length = 0 then [.navEmpty "No chapters yet."]
      else
        let sorted := jsSort entCmpV2 entries
        if arc = "lore" ∨ arc = "characters" then
          [.navTree (sortNode (buildTree sorted arc))]
        else [.chapterList sorted]
  | failure =>
    [.navError ("Couldn’t load chapters. " ++ (fetchFailureMsg failure).getD "")]

/-! ## The defensive sort at the array level

`entries.slice().sort(cmp)` allocates a fresh array with `slice()` and
sorts that copy in place; the manifest's own array is never written.
To make this frame property expressible, arrays live in a small heap of
cells addressed by index, and `sort` is the one in-place operation. -/

/-- A heap of JS arrays; a reference is an index into the cell list. -/
abbrev ArrHeap := List (List JSVal)

/-- `arr.slice()` — allocate a fresh cell holding a copy. -/
def sliceArr (h : ArrHeap) (r : Nat) : ArrHeap × Nat :=
  (h ++ [h.getD r []], h.length)

/-- `arr.sort(cmp)` — sort the addressed cell in place. -/
def sortArrInPlace (h : ArrHeap) (r : Nat) (cmp : JSVal → JSVal → Int) :
    ArrHeap :=
  h.set r (jsSort cmp (h.getD r []))

/-- `const sorted = entries.slice().sort(cmp)` (`src/js/navgen.js` line
170, `src/unnamed/part_000` line 359): slice then sort the copy,
returning the new heap and the reference to the sorted copy. -/
def defensiveSortStep (h : ArrHeap) (entriesRef : Nat)
    (cmp : JSVal → JSVal → Int) : ArrHeap × Nat :=
  let sliced := sliceArr h entriesRef
  (sortArrInPlace sliced.1 sliced.2 cmp, sliced.2)

/-! ## lightbox.js -/

/-- A DOM `a.gallery-item`: its `href` attribute and the `alt` of its
`img` child (`none` models a missing attribute or missing child). -/
structure GalleryItem where
  href : Option String
  alt : Option String
deriving DecidableEq

/-- The lightbox's mutable state (`src/content/order/js/lightbox.js`):
the current index, the overlay visibility, the displayed image source
and alt text, and the body's `no-scroll` class. -/
structure LbState where
  index : Int
  hidden : Bool
  src : String
  alt : String
  noScroll : Bool
deriving DecidableEq

namespace Lightbox

/-- `openAt(i)` (lines 36-56): refresh the item list (modelled as the
`dom` argument), bail out when it is empty, otherwise wrap the index
with `((i % n) + n) % n` (JS `%` is truncating, `Int.tmod`) and show
that item. -/
def openAt (dom : List GalleryItem) (i : Int) (s : LbState) : LbState :=
  if dom.length = 0 then s
  else
    let n : Int := (dom.length : Int)
    let idx := Int.tmod (Int.tmod i n + n) n
    let a := dom.getD idx.toNat ⟨none, none⟩
    { index := idx
      hidden := false
      src := a.href.getD ""
      alt := a.alt.getD ""
      noScroll := true }

/-- `close()` (lines 58-64). -/
def close (s : LbState) : LbState :=
  { s with
    hidden := true
    src := ""
    alt := ""
    noScroll := false
    index := -1 }

/-- `next()` (lines 66-69). -/
def next (dom : List GalleryItem) (s : LbState) : LbState :=
  if s.index < 0 then s else openAt dom (s.index + 1) s

/-- `prev()` (lines 71-74). -/
def prev (dom : List GalleryItem) (s : LbState) : LbState :=
  if s.index < 0 then s else openAt dom (s.index - 1) s

end Lightbox

/-! ## The build pipeline's manifest store (spec-modelled)

The Python builders (`build_chapters.py`, `build_characters.py`,
`build_lore.py`) are documented in `src/README.txt` and
`src/storyhub/README.txt` but their source is not part of this tree;
the following definitions model the ManifestStore contract from the
spec. -/

/-- Modelled from the spec: the manifest's top-level shape
(`{schema, generated_at, root, arcs: {flame, order, characters, lore}}`,
spec §3 and §6). -/
structure ManifestShape where
  schema : Int
  generated_at : String
  root : String
  flame : List JSVal
  order : List JSVal
  characters : List JSVal
  lore : List JSVal

/-- Modelled from the spec: the three independent build passes — the
chapter pass owns `flame`+`order`, the character pass owns
`characters`, the lore pass owns `lore` (spec §4.6). -/
inductive BuildPass where
  | chapters
  | characterPass
  | lorePass

/-- Modelled from the spec: `ManifestStore` read-modify-write — the
store reads the existing manifest, replaces only the arcs owned by the
current pass with the entries this pass built, and updates
`generated_at` (spec §4.6; the builder scripts themselves are missing
from src/). -/
def runBuildPass (prior : ManifestShape) (pass : BuildPass) (now : String)
    (builtFlame builtOrder builtCharacters builtLore : List JSVal) :
    ManifestShape :=
  match pass with
  | .chapters =>
    { prior with
      generated_at := now
      flame := builtFlame
      order := builtOrder }
  | .characterPass =>
    { prior with
      generated_at := now
      characters := builtCharacters }
  | .lorePass =>
    { prior with
      generated_at := now
      lore := builtLore }

/-- Modelled from the spec: PathClassifier for chapter filenames
`F_NN_TITLE.ext` / `O_NN_TITLE.ext` (spec §4.1, §8): the prefix picks
the arc, `NN` is a two-digit index, underscores in the title become
spaces. -/
def classifyChapterName (name : String) : Option (Bool × Int × String) :=
  match name.data with
  | c :: '_' :: d1 :: d2 :: '_' :: rest =>
    if (c = 'F' ∨ c = 'O') ∧ d1.isDigit ∧ d2.isDigit then
      let stem := rest.takeWhile (· ≠ '.')
      some (c = 'F', (d1.toNat - '0'.toNat) * 10 + (d2.toNat - '0'.toNat),
        String.mk (stem.map fun ch => if ch = '_' then ' ' else ch))
    else none
  | _ => none

/-- Modelled from the spec: the chapter-entry comparator — entries for
Flame/Order are ordered by `index` ascending (spec §4.6). -/
def chapterOrd (a b : Bool × Int × String) : Int := a.2.1 - b.2.1

/-- Modelled from the spec: the reference-entry comparator — entries
for Character/Lore are ordered by `category` then title,
case-insensitive lexical (spec §4.6). -/
def refOrd (a b : String × String) : Int :=
  let c := lexCmp (a.1.data.map Char.toLower) (b.1.data.map Char.toLower)
  if c = 0 then lexCmp (a.2.data.map Char.toLower) (b.2.data.map Char.toLower)
  else c

/-- Modelled from the spec: a full rebuild as a function of the source
documents, the media directory and the clock (spec §2, §4.6, §8): every
arc is recomputed deterministically from the inputs; only
`generated_at` depends on the clock. -/
def fullRebuild (chapterDocs : List String)
    (characterDocs loreDocs : List (String × String)) (now : String) :
    ManifestShape :=
  let classified := chapterDocs.filterMap classifyChapterName
  let mkCh : Bool × Int × String → JSVal := fun c =>
    .obj [("arc", .str (if c.1 then "flame" else "order")),
          ("index", .num c.2.1), ("title", .str c.2.2)]
  let mkRef : String → String × String → JSVal := fun arc r =>
    .obj [("arc", .str arc), ("category", .str r.1), ("title", .str r.2)]
  { schema := 2
    generated_at := now
    root := "STORYHUB"
    flame := (jsSort chapterOrd (classified.filter (·.1 = true))).map mkCh
    order := (jsSort chapterOrd (classified.filter (·.1 = false))).map mkCh
    characters := (jsSort refOrd characterDocs).map (mkRef "characters")
    lore := (jsSort refOrd loreDocs).map (mkRef "lore") }

/-! ## Properties of the defensive sort comparator -/

theorem entCmpV1_flip (a b : JSVal) : entCmpV1 a b = -entCmpV1 b a := by
  unfold entCmpV1
  cases h1 : entryIndexNum a <;> cases h2 : entryIndexNum b <;>
    simp [lexCmp_flip (entrySortKey a) (entrySortKey b)]

theorem entCmpV1_eq_sub {a b : JSVal} {ia ib : Int}
    (ha : entryIndexNum a = some ia) (hb : entryIndexNum b = some ib) :
    entCmpV1 a b = ia - ib := by
  unfold entCmpV1
  rw [ha, hb]

theorem entCmpV1_eq_lex {a b : JSVal}
    (h : entryIndexNum a = none ∨ entryIndexNum b = none) :
    entCmpV1 a b = lexCmp (entrySortKey a) (entrySortKey b) := by
  unfold entCmpV1
  rcases h with h | h
  · rw [h]
  · rw [h]; cases entryIndexNum a <;> rfl

/-- C8: the defensive sort comparators of the two navgen variants
(`src/js/navgen.js` lines 170-181 and `src/unnamed/part_000` lines
359-370) are extensionally equal — they return the same value (hence
the same sign) on every pair of entries — so both variants compute the
same sorted order for every entries array. -/
theorem navgen_comparators_equal :
    (∀ a b : JSVal, entCmpV1 a b = entCmpV2 a b) ∧
    (∀ entries : List JSVal,
      jsSort entCmpV1 entries = jsSort entCmpV2 entries) := by
  have h : entCmpV1 = entCmpV2 := rfl
  exact ⟨fun a b => rfl, fun entries => by rw [h]⟩

/-- C9: whatever the fetch outcome — network failure, non-OK HTTP
response, invalid JSON, or any (possibly malformed) manifest value —
both `buildNav` variants complete (every failure is caught by the
`try`/`catch`) and leave exactly one status element in the mount: an
error element, an empty-state element, or the rendered list/tree. -/
theorem buildNav_single_status (fetched : FetchOutcome) (arc : String) :
    (buildNavV1 fetched arc).length = 1 ∧
    (buildNavV2 fetched arc).length = 1 := by
  cases fetched with
  | ok m =>
    cases h : pickArcEntries m arc with
    | none => simp [buildNavV1, buildNavV2, h]
    | some entries =>
      by_cases he : entries.length = 0
      · simp [buildNavV1, buildNavV2, h, he]
      · by_cases ha : arc = "lore" ∨ arc = "characters" <;>
          simp [buildNavV1, buildNavV2, h, he, ha]
  | networkError msg => simp [buildNavV1, buildNavV2]
  | httpError st stx => simp [buildNavV1, buildNavV2]
  | jsonError msg => simp [buildNavV1, buildNavV2]

/-- C6: a build pass leaves every manifest arc section it does not own
unchanged — the chapter pass never mutates `characters` or `lore`, the
character pass mutates only `characters`, the lore pass mutates only
`lore`; `schema` and `root` survive every pass and only `generated_at`
and the owned section(s) may differ. -/
theorem buildPass_frame (prior : ManifestShape) (now : String)
    (bf bo bc bl : List JSVal) :
    ((runBuildPass prior .chapters now bf bo bc bl).characters
        = prior.characters ∧
      (runBuildPass prior .chapters now bf bo bc bl).lore = prior.lore ∧
      (runBuildPass prior .chapters now bf bo bc bl).schema = prior.schema ∧
      (runBuildPass prior .chapters now bf bo bc bl).root = prior.root) ∧
    ((runBuildPass prior .characterPass now bf bo bc bl).flame
        = prior.flame ∧
      (runBuildPass prior .characterPass now bf bo bc bl).order
        = prior.order ∧
      (runBuildPass prior .characterPass now bf bo bc bl).lore = prior.lore ∧
      (runBuildPass prior .characterPass now bf bo bc bl).schema
        = prior.schema ∧
      (runBuildPass prior .characterPass now bf bo bc bl).root
        = prior.root) ∧
    ((runBuildPass prior .lorePass now bf bo bc bl).flame = prior.flame ∧
      (runBuildPass prior .lorePass now bf bo bc bl).order = prior.order ∧
      (runBuildPass prior .lorePass now bf bo bc bl).characters
        = prior.characters ∧
      (runBuildPass prior .lorePass now bf bo bc bl).schema = prior.schema ∧
      (runBuildPass prior .lorePass now bf bo bc bl).root = prior.root) ∧
    (runBuildPass prior .chapters now bf bo bc bl).generated_at = now :=
  ⟨⟨rfl, rfl, rfl, rfl⟩, ⟨rfl, rfl, rfl, rfl, rfl⟩,
    ⟨rfl, rfl, rfl, rfl, rfl⟩, rfl⟩

/-- C7: the modelled build pipeline is deterministic — two full
rebuilds from identical source documents produce manifests that agree
on every component except `generated_at`, which is exactly the clock
value of each run. -/
theorem rebuild_deterministic (chapterDocs : List String)
    (characterDocs loreDocs : List (String × String)) (t1 t2 : String) :
    (fullRebuild chapterDocs characterDocs loreDocs t1).schema
      = (fullRebuild chapterDocs characterDocs loreDocs t2).schema ∧
    (fullRebuild chapterDocs characterDocs loreDocs t1).root
      = (fullRebuild chapterDocs characterDocs loreDocs t2).root ∧
    (fullRebuild chapterDocs characterDocs loreDocs t1).flame
      = (fullRebuild chapterDocs characterDocs loreDocs t2).flame ∧
    (fullRebuild chapterDocs characterDocs loreDocs t1).order
      = (fullRebuild chapterDocs characterDocs loreDocs t2).order ∧
    (fullRebuild chapterDocs characterDocs loreDocs t1).characters
      = (fullRebuild chapterDocs characterDocs loreDocs t2).characters ∧
    (fullRebuild chapterDocs characterDocs loreDocs t1).lore
      = (fullRebuild chapterDocs characterDocs loreDocs t2).lore ∧
    (fullRebuild chapterDocs characterDocs loreDocs t1).generated_at = t1 ∧
    (fullRebuild chapterDocs characterDocs loreDocs t2).generated_at = t2 :=
  ⟨rfl, rfl, rfl, rfl, rfl, rfl, rfl, rfl⟩

/-! ## Lightbox index arithmetic -/

theorem tmod_neg_dividend (a b : Int) : Int.tmod (-a) b = -Int.tmod a b := by
  rw [Int.tmod_def, Int.tmod_def, Int.neg_tdiv]
  ring

/-- `((i % n) + n) % n` with JS's truncating `%` equals the
mathematical (Euclidean) remainder. -/
theorem jsWrapMod (i n : Int) (hn : 0 < n) :
    Int.tmod (Int.tmod i n + n) n = i % n := by
  have hlow : -n < Int.tmod i n := by
    rcases le_or_lt 0 i with hi | hi
    · have := Int.tmod_nonneg n hi
      omega
    · have h1 : Int.tmod (-i) n < n := Int.tmod_lt_of_pos (-i) hn
      have h2 := tmod_neg_dividend i n
      omega
  have hnonneg : 0 ≤ Int.tmod i n + n := by omega
  rw [Int.tmod_eq_emod hnonneg (le_of_lt hn)]
  have h2 : (Int.tmod i n + n) % n = Int.tmod i n % n := by
    have hml := Int.add_mul_emod_self_left (Int.tmod i n) n 1
    rw [Int.mul_one] at hml
    exact hml
  rw [h2, Int.tmod_def]
  have h3 : i - n * i.tdiv n = i + n * (-(i.tdiv n)) := by ring
  rw [h3, Int.add_mul_emod_self_left]

/-- C10: the lightbox index is always in range and navigation wraps:
for a non-empty item list of length `n`, `openAt(i)` sets the index to
`((i % n) + n) % n` — the Euclidean remainder `i mod n`, which lies in
`[0, n)` — so `next()` from the last item reaches index 0 and `prev()`
from index 0 reaches `n - 1`; with no items `openAt` changes nothing. -/
theorem lightbox_index_wrap (dom : List GalleryItem) (i : Int) (s : LbState) :
    (dom = [] → Lightbox.openAt dom i s = s) ∧
    (dom ≠ [] →
      (Lightbox.openAt dom i s).index = i % (dom.length : Int) ∧
      0 ≤ (Lightbox.openAt dom i s).index ∧
      (Lightbox.openAt dom i s).index < (dom.length : Int)) ∧
    (dom ≠ [] → s.index = (dom.length : Int) - 1 →
      (Lightbox.next dom s).index = 0) ∧
    (dom ≠ [] → s.index = 0 →
      (Lightbox.prev dom s).index = (dom.length : Int) - 1) := by
  have key : ∀ (j : Int), dom ≠ [] →
      (Lightbox.openAt dom j s).index = j % (dom.length : Int) := by
    intro j hne
    have hlen : ¬ dom.length = 0 := by
      simpa using hne
    have hpos : 0 < (dom.length : Int) := by
      omega
    simp only [Lightbox.openAt, if_neg hlen]
    exact jsWrapMod j _ hpos
  have hposOf : dom ≠ [] → 0 < (dom.length : Int) := by
    intro hne
    have hlen : ¬ dom.length = 0 := by simp [hne]
    omega
  refine ⟨?_, ?_, ?_, ?_⟩
  · intro hd
    simp [Lightbox.openAt, hd]
  · intro hne
    have hpos := hposOf hne
    refine ⟨key i hne, ?_, ?_⟩
    · rw [key i hne]
      exact Int.emod_nonneg i (by omega)
    · rw [key i hne]
      exact Int.emod_lt_of_pos i hpos
  · intro hne hidx
    have hpos := hposOf hne
    have hge : ¬ s.index < 0 := by omega
    simp only [Lightbox.next, if_neg hge]
    rw [key (s.index + 1) hne, hidx]
    have harith : ((dom.length : Int) - 1 + 1) = (dom.length : Int) := by omega
    rw [harith, Int.emod_self]
  · intro hne hidx
    have hpos := hposOf hne
    have hge : ¬ s.index < 0 := by omega
    simp only [Lightbox.prev, if_neg hge]
    rw [key (s.index - 1) hne, hidx]
    have hminus : ((0 : Int) - 1) = -1 := by ring
    rw [hminus, Int.neg_emod]
    exact Int.emod_eq_of_lt (by omega) (by omega)

/-- Witness for `lightbox_index_wrap` at a concrete two-item gallery:
`openAt(-3)` lands on index `(-3) mod 2 = 1`. -/
theorem lightbox_index_wrap_witness :
    ([⟨some "a", some "b"⟩, ⟨none, none⟩] : List GalleryItem) ≠ [] ∧
    (Lightbox.openAt [⟨some "a", some "b"⟩, ⟨none, none⟩] (-3)
      ⟨-1, true, "", "", false⟩).index = 1 := by
  refine ⟨by simp, ?_⟩
  have h := (lightbox_index_wrap [⟨some "a", some "b"⟩, ⟨none, none⟩] (-3)
    ⟨-1, true, "", "", false⟩).2.1 (by simp)
  rw [h.1]
  decide

/-! ## C3 — the defensive sort never writes the manifest's array -/

/-- C3: the defensive sort operates on the copy made by
`entries.slice()`: after the slice-and-sort step, the manifest's own
entries cell is unchanged, while the freshly allocated cell holds the
sorted copy — a permutation of the original entries.  (`buildNavV1` and
`buildNavV2` are otherwise pure functions of the fetched manifest
value: rendering only reads entry fields.) -/
theorem defensiveSort_preserves_manifest (h : ArrHeap) (r : Nat)
    (cmp : JSVal → JSVal → Int) (hr : r < h.length) :
    (defensiveSortStep h r cmp).1.getD r [] = h.getD r [] ∧
    (defensiveSortStep h r cmp).1.getD (defensiveSortStep h r cmp).2 []
      = jsSort cmp (h.getD r []) ∧
    List.Perm
      ((defensiveSortStep h r cmp).1.getD (defensiveSortStep h r cmp).2 [])
      (h.getD r []) := by
  have hne : h.length ≠ r := by omega
  have hlt : h.length < (h ++ [h.getD r []]).length := by
    simp
  have hcell : (h ++ [h.getD r []]).getD h.length [] = h.getD r [] := by
    rw [List.getD_eq_getElem?_getD, List.getElem?_concat_length]
    rfl
  have hfst : (defensiveSortStep h r cmp).1
      = (h ++ [h.getD r []]).set h.length
        (jsSort cmp ((h ++ [h.getD r []]).getD h.length [])) := rfl
  have hsnd : (defensiveSortStep h r cmp).2 = h.length := rfl
  refine ⟨?_, ?_, ?_⟩
  · rw [hfst, List.getD_eq_getElem?_getD, List.getElem?_set_ne hne,
      List.getElem?_append_left hr, ← List.getD_eq_getElem?_getD]
  · rw [hfst, hsnd, List.getD_eq_getElem?_getD,
      List.getElem?_set_eq_of_lt _ hlt, hcell]
    rfl
  · rw [hfst, hsnd, List.getD_eq_getElem?_getD,
      List.getElem?_set_eq_of_lt _ hlt, hcell]
    exact jsSort_perm cmp (h.getD r [])

/-- Witness for `defensiveSort_preserves_manifest` on a one-cell heap
holding a two-entry array. -/
theorem defensiveSort_preserves_manifest_witness :
    0 < ([[JSVal.num 1, JSVal.num 2]] : ArrHeap).length ∧
    ((defensiveSortStep [[JSVal.num 1, JSVal.num 2]] 0 entCmpV1).1.getD 0 []
        = [JSVal.num 1, JSVal.num 2] ∧
      (defensiveSortStep [[JSVal.num 1, JSVal.num 2]] 0 entCmpV1).1.getD
          (defensiveSortStep [[JSVal.num 1, JSVal.num 2]] 0 entCmpV1).2 []
        = jsSort entCmpV1 [JSVal.num 1, JSVal.num 2]) := by
  refine ⟨by simp, ?_, ?_⟩
  · exact (defensiveSort_preserves_manifest [[JSVal.num 1, JSVal.num 2]] 0
      entCmpV1 (by simp)).1
  · exact (defensiveSort_preserves_manifest [[JSVal.num 1, JSVal.num 2]] 0
      entCmpV1 (by simp)).2.1

/-! ## C1 — the schema version gate -/

/-- The manifest shape `pickArcEntries` accepts for an arc: a truthy
object, `schema === 2`, an object `arcs`, and an array `arcs[arc]`. -/
def manifestGateOk (m : JSVal) (arc : String) : Prop :=
  (jsTruthy m = true ∧ jsTypeof m = "object") ∧
  jsIsNum (getProp m "schema") 2 = true ∧
  (jsTruthy (getProp m "arcs") = true ∧
    jsTypeof (getProp m "arcs") = "object") ∧
  ∃ xs, getProp (getProp m "arcs") arc = JSVal.arr xs

theorem pickArcEntries_none_of_not_gate {m : JSVal} {arc : String}
    (hng : ¬ manifestGateOk m arc) : pickArcEntries m arc = none := by
  unfold pickArcEntries
  by_cases c1 : jsTruthy m = false ∨ jsTypeof m ≠ "object"
  · simp [c1]
  · rw [if_neg c1]
    have g1 : jsTruthy m = true ∧ jsTypeof m = "object" := by
      rcases not_or.mp c1 with ⟨n1, n2⟩
      refine ⟨?_, not_not.mp n2⟩
      cases hb : jsTruthy m
      · exact absurd hb n1
      · rfl
    by_cases c2 : jsIsNum (getProp m "schema") 2 = false
    · simp [c2]
    · have g2 : jsIsNum (getProp m "schema") 2 = true := by
        cases hb : jsIsNum (getProp m "schema") 2
        · exact absurd hb c2
        · rfl
      rw [if_neg c2]
      by_cases c3 : jsTruthy (getProp m "arcs") = false ∨
          jsTypeof (getProp m "arcs") ≠ "object"
      · simp [c3]
      · have g3 : jsTruthy (getProp m "arcs") = true ∧
            jsTypeof (getProp m "arcs") = "object" := by
          rcases not_or.mp c3 with ⟨n1, n2⟩
          refine ⟨?_, not_not.mp n2⟩
          cases hb : jsTruthy (getProp m "arcs")
          · exact absurd hb n1
          · rfl
        rw [if_neg c3]
        cases harr : getProp (getProp m "arcs") arc with
        | arr xs => exact absurd ⟨g1, g2, g3, xs, harr⟩ hng
        | null => rfl
        | undefined => rfl
        | bool b => rfl
        | num n => rfl
        | str s => rfl
        | obj fields => rfl

theorem pickArcEntries_some_of_gate {m : JSVal} {arc : String}
    (hg : manifestGateOk m arc) {xs : List JSVal}
    (harr : getProp (getProp m "arcs") arc = JSVal.arr xs) :
    pickArcEntries m arc = some xs := by
  obtain ⟨⟨ht, hob⟩, hs, ⟨hat, haob⟩, _⟩ := hg
  unfold pickArcEntries
  rw [if_neg (by simp [ht, hob]), if_neg (by simp [hs]),
    if_neg (by simp [hat, haob]), harr]
  rfl

/-- C1: the version gate — `pickArcEntries(m, a)` returns `null`
exactly when `m` is not a (truthy) object, `m.schema !== 2`, `m.arcs`
is not an object, or `m.arcs[a]` is not an array; in that case both
`buildNav` variants render the format-mismatch error element instead of
any entry list, and otherwise `pickArcEntries` returns the array
`m.arcs[a]` itself. -/
theorem pickArcEntries_version_gate (m : JSVal) (arc : String) :
    (pickArcEntries m arc = none ↔ ¬ manifestGateOk m arc) ∧
    (∀ xs, manifestGateOk m arc →
      getProp (getProp m "arcs") arc = JSVal.arr xs →
      pickArcEntries m arc = some xs) ∧
    (¬ manifestGateOk m arc →
      buildNavV1 (.ok m) arc
        = [.navError "Manifest format mismatch (expected schema 2)."] ∧
      buildNavV2 (.ok m) arc
        = [.navError "Manifest format mismatch (expected schema 2)."]) := by
  refine ⟨⟨?_, pickArcEntries_none_of_not_gate⟩, ?_, ?_⟩
  · intro hnone hg
    obtain ⟨g1, g2, g3, xs, harr⟩ := hg
    rw [pickArcEntries_some_of_gate ⟨g1, g2, g3, xs, harr⟩ harr] at hnone
    exact Option.noConfusion hnone
  · intro xs hg harr
    exact pickArcEntries_some_of_gate hg harr
  · intro hng
    have hnone := pickArcEntries_none_of_not_gate hng
    exact ⟨by simp [buildNavV1, hnone], by simp [buildNavV2, hnone]⟩

/-- Witness for `pickArcEntries_version_gate`: the number `3` is not an
object, so the gate rejects it and both variants render the
format-mismatch error. -/
theorem pickArcEntries_version_gate_witness :
    ¬ manifestGateOk (JSVal.num 3) "flame" ∧
    pickArcEntries (JSVal.num 3) "flame" = none ∧
    buildNavV1 (.ok (JSVal.num 3)) "flame"
      = [.navError "Manifest format mismatch (expected schema 2)."] ∧
    buildNavV2 (.ok (JSVal.num 3)) "flame"
      = [.navError "Manifest format mismatch (expected schema 2)."] := by
  have hgate : ¬ manifestGateOk (JSVal.num 3) "flame" := by
    intro hg
    exact absurd hg.1.2 (by decide)
  have hthm := pickArcEntries_version_gate (JSVal.num 3) "flame"
  exact ⟨hgate, hthm.1.mpr hgate, (hthm.2.2 hgate).1, (hthm.2.2 hgate).2⟩

/-! ## C2 / C5 — what ordering the defensive sort actually produces -/

/-- The numeric index of an entry, defaulting to 0 (only used on
entries known to have a numeric index). -/
def entryIndexVal (e : JSVal) : Int := (entryIndexNum e).getD 0

theorem entCmpV1_le_iff_of_num {a b : JSVal}
    (ha : (entryIndexNum a).isSome = true)
    (hb : (entryIndexNum b).isSome = true) :
    entCmpV1 a b ≤ 0 ↔ entryIndexVal a ≤ entryIndexVal b := by
  obtain ⟨ia, hia⟩ := Option.isSome_iff_exists.mp ha
  obtain ⟨ib, hib⟩ := Option.isSome_iff_exists.mp hb
  rw [entCmpV1_eq_sub hia hib]
  unfold entryIndexVal
  rw [hia, hib]
  simp only [Option.getD_some]
  omega

theorem sortedByIdx (l : List JSVal)
    (hnum : ∀ e ∈ l, (entryIndexNum e).isSome = true) :
    (jsSort entCmpV1 l).Pairwise
      (fun a b => entryIndexVal a ≤ entryIndexVal b) := by
  have htrans : ∀ a b c, a ∈ l → b ∈ l → c ∈ l →
      entCmpV1 a b ≤ 0 → entCmpV1 b c ≤ 0 → entCmpV1 a c ≤ 0 := by
    intro a b c ha hb hc h1 h2
    rw [entCmpV1_le_iff_of_num (hnum a ha) (hnum b hb)] at h1
    rw [entCmpV1_le_iff_of_num (hnum b hb) (hnum c hc)] at h2
    rw [entCmpV1_le_iff_of_num (hnum a ha) (hnum c hc)]
    omega
  have hp := jsSort_pairwise entCmpV1 l entCmpV1_flip htrans
  refine hp.imp_of_mem ?_
  intro a b ha hb hle
  have ha' := (jsSort_perm entCmpV1 l).mem_iff.mp ha
  have hb' := (jsSort_perm entCmpV1 l).mem_iff.mp hb
  exact (entCmpV1_le_iff_of_num (hnum a ha') (hnum b hb')).mp hle

theorem sortedByIdx_strict (l : List JSVal)
    (hnum : ∀ e ∈ l, (entryIndexNum e).isSome = true)
    (hdist : l.Pairwise fun a b => entryIndexVal a ≠ entryIndexVal b) :
    (jsSort entCmpV1 l).Pairwise
      (fun a b => entryIndexVal a < entryIndexVal b) := by
  have h1 := sortedByIdx l hnum
  have h2 : (jsSort entCmpV1 l).Pairwise
      (fun a b => entryIndexVal a ≠ entryIndexVal b) :=
    (List.Perm.pairwise_iff (fun h => Ne.symm h)
      (jsSort_perm entCmpV1 l)).mpr hdist
  exact (h1.and h2).imp fun h => lt_of_le_of_ne h.1 h.2

/-- Two chapter entries sharing the numeric index 1. -/
def dupIdxA : JSVal := .obj [("id", .str "A"), ("index", .num 1)]

/-- Second entry with the same index as `dupIdxA`. -/
def dupIdxB : JSVal := .obj [("id", .str "B"), ("index", .num 1)]

/-- A schema-2 manifest whose `flame` arc holds the two entries. -/
def dupManifest : JSVal :=
  .obj [("schema", .num 2),
        ("arcs", .obj [("flame", .arr [dupIdxA, dupIdxB])])]

/-- C2 counterexample: in a non-empty entries array in which every
entry has a numeric index but two entries share the index 1, the rows
`buildNav` renders are NOT in strictly ascending index order — the
defensive sort (being stable) keeps both index-1 rows, so "strictly
ascending" fails as stated. -/
theorem defensiveSort_not_strict_on_duplicate_index :
    (∀ e ∈ [dupIdxA, dupIdxB], (entryIndexNum e).isSome = true) ∧
    buildNavV1 (.ok dupManifest) "flame"
      = [.chapterList [dupIdxA, dupIdxB]] ∧
    entryIndexVal dupIdxA = 1 ∧ entryIndexVal dupIdxB = 1 ∧
    ¬ (jsSort entCmpV1 [dupIdxA, dupIdxB]).Pairwise
        (fun a b => entryIndexVal a < entryIndexVal b) := by
  refine ⟨by decide, rfl, rfl, rfl, ?_⟩
  have hs : jsSort entCmpV1 [dupIdxA, dupIdxB] = [dupIdxA, dupIdxB] := rfl
  rw [hs]
  intro hp
  rw [List.pairwise_cons] at hp
  have hlt := hp.1 dupIdxB (by simp)
  have e1 : entryIndexVal dupIdxA = 1 := rfl
  have e2 : entryIndexVal dupIdxB = 1 := rfl
  rw [e1, e2] at hlt
  exact absurd hlt (by decide)

/-- C2 (amended): for a non-empty arc entries array in which every
entry has a numeric index, `buildNav` renders the defensively sorted
rows — a permutation of the entries in non-decreasing index order;
when the indices are moreover pairwise distinct the order is strictly
ascending and is the same for every input permutation of the entries
(i.e. regardless of the order in the manifest array). -/
theorem defensiveSort_index_order (m : JSVal) (arc : String) (l : List JSVal)
    (hpick : pickArcEntries m arc = some l) (hne : l ≠ [])
    (hnum : ∀ e ∈ l, (entryIndexNum e).isSome = true) :
    buildNavV1 (.ok m) arc = [.chapterList (jsSort entCmpV1 l)] ∧
    List.Perm (jsSort entCmpV1 l) l ∧
    (jsSort entCmpV1 l).Pairwise
      (fun a b => entryIndexVal a ≤ entryIndexVal b) ∧
    (l.Pairwise (fun a b => entryIndexVal a ≠ entryIndexVal b) →
      (jsSort entCmpV1 l).Pairwise
        (fun a b => entryIndexVal a < entryIndexVal b)) ∧
    (∀ l₂, List.Perm l l₂ →
      l.Pairwise (fun a b => entryIndexVal a ≠ entryIndexVal b) →
      jsSort entCmpV1 l₂ = jsSort entCmpV1 l) := by
  have hlen : ¬ l.length = 0 := by
    simp [hne]
  refine ⟨by simp [buildNavV1, hpick, hlen], jsSort_perm entCmpV1 l,
    sortedByIdx l hnum, sortedByIdx_strict l hnum, ?_⟩
  intro l₂ hperm hdist
  have hnum₂ : ∀ e ∈ l₂, (entryIndexNum e).isSome = true :=
    fun e he => hnum e (hperm.mem_iff.mpr he)
  have hdist₂ : l₂.Pairwise fun a b => entryIndexVal a ≠ entryIndexVal b :=
    (List.Perm.pairwise_iff (fun h => Ne.symm h) hperm).mp hdist
  have s1 := sortedByIdx_strict l hnum hdist
  have s2 := sortedByIdx_strict l₂ hnum₂ hdist₂
  have hp : List.Perm (jsSort entCmpV1 l₂) (jsSort entCmpV1 l) :=
    ((jsSort_perm entCmpV1 l₂).trans hperm.symm).trans
      (jsSort_perm entCmpV1 l).symm
  haveI : IsAntisymm JSVal (fun a b => entryIndexVal a < entryIndexVal b) :=
    ⟨fun a b h1 h2 => False.elim (by omega)⟩
  exact List.eq_of_perm_of_sorted hp s2 s1

/-- Chapter entry with index 2 (for the witness manifest). -/
def chapterTwo : JSVal := .obj [("id", .str "F_02"), ("index", .num 2)]

/-- Chapter entry with index 1 (for the witness manifest). -/
def chapterOne : JSVal := .obj [("id", .str "F_01"), ("index", .num 1)]

/-- Witness manifest: `flame` holds the two chapters out of order. -/
def chapterManifest : JSVal :=
  .obj [("schema", .num 2),
        ("arcs", .obj [("flame", .arr [chapterTwo, chapterOne])])]

/-- Witness for `defensiveSort_index_order` on a concrete two-chapter
manifest listed out of order. -/
theorem defensiveSort_index_order_witness :
    pickArcEntries chapterManifest "flame" = some [chapterTwo, chapterOne] ∧
    ([chapterTwo, chapterOne] : List JSVal) ≠ [] ∧
    (∀ e ∈ [chapterTwo, chapterOne], (entryIndexNum e).isSome = true) ∧
    (buildNavV1 (.ok chapterManifest) "flame"
        = [.chapterList (jsSort entCmpV1 [chapterTwo, chapterOne])] ∧
      List.Perm (jsSort entCmpV1 [chapterTwo, chapterOne])
        [chapterTwo, chapterOne] ∧
      (jsSort entCmpV1 [chapterTwo, chapterOne]).Pairwise
        (fun a b => entryIndexVal a ≤ entryIndexVal b)) := by
  have h := defensiveSort_index_order chapterManifest "flame"
    [chapterTwo, chapterOne] rfl (by simp) (by decide)
  exact ⟨rfl, by simp, by decide, h.1, h.2.1, h.2.2.1⟩

/-- Reference entry: category `zeta`, title `Alpha`. -/
def refCatZeta : JSVal :=
  .obj [("category", .str "zeta"), ("title", .str "Alpha")]

/-- Reference entry: category `alpha`, title `Beta`. -/
def refCatAlpha : JSVal :=
  .obj [("category", .str "alpha"), ("title", .str "Beta")]

/-- C5 counterexample: the defensive sort does not order reference-arc
entries by category — it compares titles only.  For these two indexless
entries, the sorted order puts the `zeta`-category entry (title
`Alpha`) before the `alpha`-category entry (title `Beta`), although
`alpha` is lexically smaller than `zeta`. -/
theorem defensiveSort_ignores_category :
    (∀ e ∈ [refCatAlpha, refCatZeta], entryIndexNum e = none) ∧
    jsSort entCmpV1 [refCatAlpha, refCatZeta] = [refCatZeta, refCatAlpha] ∧
    (jsSort entCmpV1 [refCatAlpha, refCatZeta]).map
      (fun e => jsToString (getProp e "category")) = ["zeta", "alpha"] ∧
    lexCmp "alpha".data "zeta".data < 0 := by
  exact ⟨by decide, rfl, rfl, by decide⟩

/-- C5 (amended): for reference-arc entries (no numeric `index`), the
defensive sort orders by the case-insensitive title key
`String(title || title_text || id || "").toLowerCase()` alone — the
result is a permutation of the input that is non-decreasing in that
key; `category` is not consulted by this comparator. -/
theorem defensiveSort_reference_title_order (l : List JSVal)
    (hnone : ∀ e ∈ l, entryIndexNum e = none) :
    List.Perm (jsSort entCmpV1 l) l ∧
    (jsSort entCmpV1 l).Pairwise
      (fun a b => lexCmp (entrySortKey a) (entrySortKey b) ≤ 0) := by
  refine ⟨jsSort_perm entCmpV1 l, ?_⟩
  have htrans : ∀ a b c, a ∈ l → b ∈ l → c ∈ l →
      entCmpV1 a b ≤ 0 → entCmpV1 b c ≤ 0 → entCmpV1 a c ≤ 0 := by
    intro a b c ha hb hc h1 h2
    rw [entCmpV1_eq_lex (Or.inl (hnone a ha))] at h1 ⊢
    rw [entCmpV1_eq_lex (Or.inl (hnone b hb))] at h2
    exact lexCmp_le_trans _ _ _ h1 h2
  have hp := jsSort_pairwise entCmpV1 l entCmpV1_flip htrans
  refine hp.imp_of_mem ?_
  intro a b ha hb hle
  rwa [entCmpV1_eq_lex
    (Or.inl (hnone a ((jsSort_perm entCmpV1 l).mem_iff.mp ha)))] at hle

/-- Witness for `defensiveSort_reference_title_order` on the two
concrete reference entries. -/
theorem defensiveSort_reference_title_order_witness :
    (∀ e ∈ [refCatAlpha, refCatZeta], entryIndexNum e = none) ∧
    (List.Perm (jsSort entCmpV1 [refCatAlpha, refCatZeta])
        [refCatAlpha, refCatZeta] ∧
      (jsSort entCmpV1 [refCatAlpha, refCatZeta]).Pairwise
        (fun a b => lexCmp (entrySortKey a) (entrySortKey b) ≤ 0)) :=
  ⟨by decide,
    defensiveSort_reference_title_order [refCatAlpha, refCatZeta] (by decide)⟩

/-! ## C4 — the tree client re-derives metadata from output paths -/

/-- A character entry whose `output` sits under the `fiends` category
folder; its displayed metadata fields carry the title `Lucy Moore`. -/
def refEntryA : JSVal :=
  .obj [("type", .str "C"), ("arc", .str "characters"),
        ("category", .str "fiends"), ("title", .str "Lucy Moore"),
        ("slug", .str "lucy-moore"),
        ("output", .str "content/characters/fiends/lucy-moore.html")]

/-- The same entry as `refEntryA` except for its `output` field. -/
def refEntryB : JSVal :=
  .obj [("type", .str "C"), ("arc", .str "characters"),
        ("category", .str "fiends"), ("title", .str "Lucy Moore"),
        ("slug", .str "lucy-moore"),
        ("output", .str "content/characters/marauders/renamed.html")]

/-- C4: the navigation client of `src/unnamed/part_000` DOES re-derive
displayed metadata from output paths, contrary to the consumer
contract.  `refEntryA` and `refEntryB` agree on `title`, `title_text`,
`id`, `category` and `counts` and differ only in `output`, yet
`leafTitleFromEntry` falls back to the output filename stem (the title
`Lucy Moore` contains no ` / ` separator), so the rendered titles
differ (`Lucy Moore` vs `Renamed`), and `buildTree` groups the two
entries under different folders taken from the output path (`fiends`
vs `marauders`). -/
theorem navClient_rederives_from_output :
    (getProp refEntryA "title" = getProp refEntryB "title" ∧
      getProp refEntryA "title_text" = getProp refEntryB "title_text" ∧
      getProp refEntryA "id" = getProp refEntryB "id" ∧
      getProp refEntryA "category" = getProp refEntryB "category" ∧
      getProp refEntryA "counts" = getProp refEntryB "counts") ∧
    displayedTitleV2 refEntryA = "Lucy Moore" ∧
    displayedTitleV2 refEntryB = "Renamed" ∧
    displayedTitleV2 refEntryA ≠ displayedTitleV2 refEntryB ∧
    (buildTree [refEntryA] "characters").folders.map Prod.fst = ["fiends"] ∧
    (buildTree [refEntryB] "characters").folders.map Prod.fst
      = ["marauders"] := by
  set_option maxRecDepth 4096 in
  refine ⟨⟨rfl, rfl, rfl, rfl, rfl⟩, rfl, rfl, by decide, rfl, rfl⟩
